import Mathlib

/-!
Shallow embedding of the `eli` interactive JSON-RPC terminal client
(`src/app.rs`, `src/events.rs`, `src/rpc.rs`, `src/main.rs`), together with
theorems checking the natural-language specification against this code.

The embedding translates the Rust source directly:

* `serde_json::Value` becomes the inductive `Json`; `Value::to_string()`
  (compact JSON serialization, used when replaying history entries) becomes
  `Json.render`.
* `App`, `AppMode`, `App::new`, `App::filter_methods` come from `src/app.rs`.
  `ratatui::widgets::ListState` is modelled by the only part of it the core
  reads or writes: the optional selected index.
* The three key-event handlers come from `src/events.rs`; the Rust `match`
  arms are translated in source order, including guard fall-through, so that
  an earlier arm shadowing a later one is preserved by the translation.
* `handleKey` is the per-mode dispatch performed by the event loop in
  `src/main.rs`.
* `send_rpc_request` from `src/rpc.rs` is embedded with the network modelled
  as an oracle `net` describing the outcome of the HTTP POST: either a
  transport-level failure, or a body that may or may not parse as JSON.
  Deserialization of `JsonRpcResponse` (serde derive) is modelled by
  `responseFromJson`.
-/

/-- JSON values, as in `serde_json::Value` (numbers restricted to integers,
which is all this program ever stores in `params`). -/
inductive Json where
  | null
  | bool (b : Bool)
  | num (n : Int)
  | str (s : String)
  | arr (elems : List Json)
  | obj (fields : List (String × Json))

/-- Escape a character for JSON string output, as in `serde_json`
(quote and backslash; control characters do not occur in this development). -/
def escapeChar (c : Char) : String :=
  if c = '"' then "\\\"" else if c = '\\' then "\\\\" else String.singleton c

/-- Escape a string for JSON string output. -/
def escapeString (s : String) : String :=
  String.join (s.toList.map escapeChar)

mutual

/-- Compact JSON serialization, as produced by `serde_json::Value::to_string()`
(`v.to_string()` in `handle_history_mode`). In particular a JSON string
renders with its surrounding quotes. -/
def Json.render : Json → String
  | .null => "null"
  | .bool b => if b then "true" else "false"
  | .num n => toString n
  | .str s => "\"" ++ escapeString s ++ "\""
  | .arr xs => "[" ++ Json.renderElems xs ++ "]"
  | .obj fs => "\x7b" ++ Json.renderFields fs ++ "\x7d"

/-- Comma-separated rendering of JSON array elements. -/
def Json.renderElems : List Json → String
  | [] => ""
  | [x] => Json.render x
  | x :: y :: xs => Json.render x ++ "," ++ Json.renderElems (y :: xs)

/-- Comma-separated rendering of JSON object fields. -/
def Json.renderFields : List (String × Json) → String
  | [] => ""
  | [(k, v)] => "\"" ++ escapeString k ++ "\":" ++ Json.render v
  | (k, v) :: g :: fs =>
      "\"" ++ escapeString k ++ "\":" ++ Json.render v ++ "," ++
        Json.renderFields (g :: fs)

end

/-- The `Value::as_array` accessor: `some` of the element list exactly on
JSON arrays. -/
def Json.as_array : Json → Option (List Json)
  | .arr xs => some xs
  | _ => none

/-- A JSON-RPC request payload (`JsonRpcRequest` in `src/rpc.rs`).
The Rust `id` field is a `u64`; no arithmetic is ever performed on it, so it
is embedded as `Nat`. -/
structure JsonRpcRequest where
  jsonrpc : String
  method : String
  params : Json
  id : Nat

/-- The `JsonRpcRequest::new` constructor: fixes `jsonrpc` to `"2.0"`. -/
def JsonRpcRequest.new (method : String) (params : Json) (id : Nat) :
    JsonRpcRequest :=
  { jsonrpc := "2.0", method := method, params := params, id := id }

/-- A JSON-RPC response payload (`JsonRpcResponse` in `src/rpc.rs`).
Both `result` and `error` are independent options: the data model does not
force exactly one of them to be present. -/
structure JsonRpcResponse where
  jsonrpc : String
  result : Option Json
  error : Option Json
  id : Nat

/-- The selected-index state of a `ratatui` `ListState`; the core logic only
ever calls `selected()` and `select(..)` on it. -/
structure ListState where
  selected : Option Nat
deriving DecidableEq, Repr

/-- The current UI mode (`AppMode` in `src/app.rs`). -/
inductive AppMode where
  | Main
  | ParamInput
  | History
deriving DecidableEq, Repr

/-- The application state (`App` in `src/app.rs`). -/
structure App where
  mode : AppMode
  should_quit : Bool
  search_input : String
  all_methods : List String
  filtered_methods : List String
  methods_state : ListState
  param_inputs : List String
  history : List (JsonRpcRequest × JsonRpcResponse)
  history_state : ListState

/-- The `App::new` constructor with its hard-coded method list. -/
def App.new : App :=
  { mode := AppMode.Main
    should_quit := false
    search_input := ""
    all_methods := ["eth_blockNumber", "eth_getBalance", "eth_gasPrice", "eth_call"]
    filtered_methods := ["eth_blockNumber", "eth_getBalance", "eth_gasPrice", "eth_call"]
    methods_state := ⟨some 0⟩
    param_inputs := []
    history := []
    history_state := ⟨some 0⟩ }

/-- Substring search on character lists, the semantics of Rust
`str::contains(&str)`: the pattern occurs contiguously somewhere in the
haystack. -/
def containsSeq : List Char → List Char → Bool
  | [], pat => pat.isEmpty
  | h :: hs, pat => pat.isPrefixOf (h :: hs) || containsSeq hs pat

/-- Rust `str::contains`: `pat` occurs in `hay` as a contiguous substring. -/
def strContainsSubstr (hay pat : String) : Bool :=
  containsSeq hay.toList pat.toList

/-- Rust `String::pop`: drop the last character (no-op on the empty
string). -/
def stringPop (s : String) : String :=
  String.mk s.toList.dropLast

/-- Rust `char::is_control`: the Unicode `Cc` category,
`U+0000..U+001F` and `U+007F..U+009F`. -/
def charIsControl (c : Char) : Bool :=
  c.toNat < 0x20 || (0x7f ≤ c.toNat && c.toNat ≤ 0x9f)

/-- The `App::filter_methods` method: recompute `filtered_methods` from
`all_methods` and `search_input` by case-insensitive substring match, and
reset the methods selection to `Some(0)`. -/
def App.filter_methods (app : App) : App :=
  let query := app.search_input.toLower
  let filtered :=
    if query.isEmpty then app.all_methods
    else app.all_methods.filter (fun m => strContainsSubstr m.toLower query)
  { app with filtered_methods := filtered, methods_state := ⟨some 0⟩ }

/-- Key modifiers (the bits of `crossterm::event::KeyModifiers` this program
inspects). `modifiers.contains(KeyModifiers::CONTROL)` is `control = true`;
the pattern `modifiers: KeyModifiers::NONE` is `⟨false, false, false⟩`. -/
structure KeyModifiers where
  control : Bool
  shift : Bool
  alt : Bool
deriving DecidableEq, Repr

/-- The empty modifier set `KeyModifiers::NONE`. -/
def KeyModifiers.NONE : KeyModifiers := ⟨false, false, false⟩

/-- The key codes this program matches on (`crossterm::event::KeyCode`). -/
inductive KeyCode where
  | Char (c : Char)
  | Backspace
  | Enter
  | Esc
  | Up
  | Down
deriving DecidableEq, Repr

/-- A decoded key event (`crossterm::event::KeyEvent`). -/
structure KeyEvent where
  code : KeyCode
  modifiers : KeyModifiers
deriving DecidableEq, Repr

/-- Rust `Iterator::position`: index of the first element satisfying `p`. -/
def listPosition (p : String → Bool) : List String → Option Nat
  | [] => none
  | a :: l => if p a then some 0 else (listPosition p l).map (· + 1)

/-- The `handle_main_mode` handler from `src/events.rs`, with the `match`
arms in source order. Note that for a `Char` key the printable-character arm
is tried before the `'h'` arm, exactly as in the source, so the `'h'` arm is
only reachable when the printable-character guard fails. -/
def handle_main_mode (app : App) (key : KeyEvent) : App :=
  match key.code with
  | KeyCode.Char c =>
      if c = 'c' ∧ key.modifiers.control = true then
        { app with should_quit := true }
      else if key.modifiers = KeyModifiers.NONE ∧ charIsControl c = false then
        App.filter_methods { app with search_input := app.search_input.push c }
      else if c = 'h' ∧ key.modifiers = KeyModifiers.NONE then
        { app with mode := AppMode.History }
      else app
  | KeyCode.Backspace =>
      App.filter_methods { app with search_input := stringPop app.search_input }
  | KeyCode.Up =>
      let i := app.methods_state.selected.getD 0
      if i > 0 then { app with methods_state := ⟨some (i - 1)⟩ } else app
  | KeyCode.Down =>
      let i := app.methods_state.selected.getD 0
      if i + 1 < app.filtered_methods.length then
        { app with methods_state := ⟨some (i + 1)⟩ }
      else app
  | KeyCode.Enter =>
      { app with param_inputs := ["", ""], mode := AppMode.ParamInput }
  | KeyCode.Esc => app

/-- The `handle_param_input_mode` handler from `src/events.rs`. The
`param_inputs.get_mut(0)` access is modelled by matching on the list: the
empty list leaves the state untouched. -/
def handle_param_input_mode (app : App) (key : KeyEvent) : App :=
  match key.code with
  | KeyCode.Char c =>
      if c = 'c' ∧ key.modifiers.control = true then
        { app with should_quit := true }
      else if key.modifiers = KeyModifiers.NONE ∧ charIsControl c = false then
        match app.param_inputs with
        | [] => app
        | field :: rest => { app with param_inputs := field.push c :: rest }
      else app
  | KeyCode.Esc => { app with mode := AppMode.Main }
  | KeyCode.Enter => { app with mode := AppMode.Main }
  | KeyCode.Backspace =>
      match app.param_inputs with
      | [] => app
      | field :: rest => { app with param_inputs := stringPop field :: rest }
  | _ => app

/-- The `handle_history_mode` handler from `src/events.rs`. -/
def handle_history_mode (app : App) (key : KeyEvent) : App :=
  match key.code with
  | KeyCode.Char c =>
      if c = 'c' ∧ key.modifiers.control = true then
        { app with should_quit := true }
      else app
  | KeyCode.Esc => { app with mode := AppMode.Main }
  | KeyCode.Up =>
      let i := app.history_state.selected.getD 0
      if i > 0 then { app with history_state := ⟨some (i - 1)⟩ } else app
  | KeyCode.Down =>
      let i := app.history_state.selected.getD 0
      if i + 1 < app.history.length then
        { app with history_state := ⟨some (i + 1)⟩ }
      else app
  | KeyCode.Enter =>
      match app.history.get? (app.history_state.selected.getD 0) with
      | some (req, _) =>
          let withList := { app with filtered_methods := app.all_methods }
          let withSel :=
            match listPosition (fun m => m == req.method) app.all_methods with
            | some idx => { withList with methods_state := ⟨some idx⟩ }
            | none => withList
          { withSel with
              param_inputs := ((Json.as_array req.params).getD []).map Json.render
              mode := AppMode.ParamInput }
      | none => app
  | KeyCode.Backspace => app

/-- The per-mode dispatch performed by the event loop in `src/main.rs`. -/
def handleKey (app : App) (key : KeyEvent) : App :=
  match app.mode with
  | AppMode.Main => handle_main_mode app key
  | AppMode.ParamInput => handle_param_input_mode app key
  | AppMode.History => handle_history_mode app key

/-- Transport-level failures of the HTTP exchange: the connection cannot be
established, the request times out, or the connection is reset. -/
inductive TransportError where
  | connectFailed
  | timeout
  | connectionReset
deriving DecidableEq, Repr

/-- Outcome of the HTTP POST performed by `send_rpc_request`: either a
transport-level failure, or a response body; the body is `some` of its JSON
parse when it is valid JSON and `none` otherwise. -/
inductive HttpOutcome where
  | transportFail (e : TransportError)
  | body (b : Option Json)

/-- The two error kinds surfaced by the RPC exchange: a transport error
(carrying the transport failure) or a protocol error (a body was received
but is not a well-formed `JsonRpcResponse` envelope). In the Rust code both
travel as `anyhow::Error` wrapping a `reqwest::Error`, whose kind
(`is_connect`/`is_timeout` versus `is_decode`) keeps the two cases
distinguishable. -/
inductive RpcError where
  | transport (e : TransportError)
  | protocol
deriving DecidableEq, Repr

/-- Field access on a JSON object (first binding wins, as in a parsed
`serde_json` map, which cannot contain duplicate keys). -/
def jsonField (j : Json) (k : String) : Option Json :=
  match j with
  | Json.obj fs => List.lookup k fs
  | _ => none

/-- Deserialization of an `Option<Value>` struct field under serde: a missing
field and an explicit JSON `null` both give `None`. -/
def optionalField (j : Json) (k : String) : Option Json :=
  match jsonField j k with
  | some Json.null => none
  | some v => some v
  | none => none

/-- Deserialization of `JsonRpcResponse` as generated by serde derive:
requires a string `jsonrpc` field and a `u64` `id` field; `result` and
`error` are optional; unknown fields are ignored. -/
def responseFromJson (j : Json) : Option JsonRpcResponse :=
  match jsonField j "jsonrpc", jsonField j "id" with
  | some (Json.str ver), some (Json.num n) =>
      if 0 ≤ n ∧ n < 2 ^ 64 then
        some { jsonrpc := ver
               result := optionalField j "result"
               error := optionalField j "error"
               id := n.toNat }
      else none
  | _, _ => none

/-- The `send_rpc_request` function from `src/rpc.rs`, with the network
round trip modelled by the oracle `net`: the first `?` surfaces a transport
failure of `send()`, the second surfaces a decode failure of
`resp.json::<JsonRpcResponse>()`. -/
def send_rpc_request (net : String → JsonRpcRequest → HttpOutcome)
    (url : String) (req_body : JsonRpcRequest) :
    Except RpcError JsonRpcResponse :=
  match net url req_body with
  | HttpOutcome.transportFail e => Except.error (RpcError.transport e)
  | HttpOutcome.body none => Except.error RpcError.protocol
  | HttpOutcome.body (some j) =>
      match responseFromJson j with
      | none => Except.error RpcError.protocol
      | some r => Except.ok r

/-! ## Concrete fixtures used by closed evaluation theorems and witnesses -/

/-- A concrete request, as stored in a history entry. -/
def reqW : JsonRpcRequest :=
  JsonRpcRequest.new "eth_getBalance" (Json.arr [Json.str "0xABC", Json.str "latest"]) 1

/-- A concrete successful response paired with `reqW`. -/
def resW : JsonRpcResponse :=
  { jsonrpc := "2.0", result := some (Json.str "0x1"), error := none, id := 1 }

/-- A concrete state in `ParamInput` mode with filled-in parameter fields. -/
def appParamInput : App :=
  { App.new with mode := AppMode.ParamInput, param_inputs := ["0xABC", ""] }

/-- A concrete state in `ParamInput` mode with an empty parameter field set. -/
def appParamInputEmpty : App :=
  { App.new with mode := AppMode.ParamInput }

/-- A concrete state in `History` mode with one history entry. -/
def appHistory : App :=
  { App.new with mode := AppMode.History, history := [(reqW, resW)] }

/-- A concrete state in `Main` mode with the cursor on the last filtered
method. -/
def appMainLast : App :=
  { App.new with methods_state := ⟨some 3⟩ }

/-- A network oracle that always fails at the transport level. -/
def netTransport : String → JsonRpcRequest → HttpOutcome :=
  fun _ _ => HttpOutcome.transportFail TransportError.timeout

/-- A network oracle that returns a body that is not valid JSON. -/
def netBadBody : String → JsonRpcRequest → HttpOutcome :=
  fun _ _ => HttpOutcome.body none

/-- A well-formed response body, as in the mock-server test of
`src/rpc.rs`. -/
def goodBody : Json :=
  Json.obj [("jsonrpc", Json.str "2.0"), ("result", Json.str "0x1"), ("id", Json.num 1)]

/-- A network oracle that returns `goodBody`. -/
def netGood : String → JsonRpcRequest → HttpOutcome :=
  fun _ _ => HttpOutcome.body (some goodBody)

/-- The parse of `goodBody` as a `JsonRpcResponse`. -/
def resGood : JsonRpcResponse :=
  { jsonrpc := "2.0", result := some (Json.str "0x1"), error := none, id := 1 }

/-! ## Helper lemmas -/

/-- The empty pattern occurs in every haystack. -/
theorem containsSeq_nil (hay : List Char) : containsSeq hay [] = true := by
  induction hay with
  | nil => rfl
  | cons h hs ih => simp [containsSeq]

/-- Correctness of the substring search: `containsSeq hay pat` holds exactly
when `pat` is a contiguous infix of `hay`. -/
theorem containsSeq_iff (pat hay : List Char) :
    containsSeq hay pat = true ↔ pat <:+: hay := by
  induction hay with
  | nil =>
      simp [containsSeq, List.infix_nil, List.isEmpty_iff]
  | cons h hs ih =>
      simp [containsSeq, List.infix_cons_iff, List.isPrefixOf_iff_prefix, ih]

/-- Characterization of `App::filter_methods`: it is the record update that
replaces `filtered_methods` by the case-insensitive substring filter of
`all_methods` and resets the methods cursor to `Some(0)`. The special case
for an empty query in the source is absorbed: the empty pattern matches
every method name. -/
theorem filter_methods_eq (app : App) :
    app.filter_methods
      = { app with
            filtered_methods :=
              app.all_methods.filter
                (fun m => strContainsSubstr m.toLower app.search_input.toLower),
            methods_state := ⟨some 0⟩ } := by
  simp only [App.filter_methods]
  by_cases h : app.search_input.toLower.isEmpty = true
  · rw [if_pos h]
    have hq : app.search_input.toLower = "" := (String.isEmpty_iff _).mp h
    rw [hq]
    have hf : app.all_methods.filter (fun m => strContainsSubstr m.toLower "")
        = app.all_methods := by
      apply List.filter_eq_self.mpr
      intro a _
      exact containsSeq_nil a.toLower.toList
    rw [hf]
  · rw [if_neg h]

/-! ## C3 -/

/-- C3: for every search string and every full method list,
`filter_methods` sets `filtered_methods` to exactly the filter (hence the
order-preserving subsequence) of the methods whose lowercase name contains
the lowercase query as a substring, and running `filter_methods` again with
the unchanged query and full list leaves the filtered list unchanged. -/
theorem filter_methods_spec (app : App) :
    ((app.filter_methods).filtered_methods
      = app.all_methods.filter
          (fun m => strContainsSubstr m.toLower app.search_input.toLower))
  ∧ ((app.filter_methods).filter_methods.filtered_methods
      = (app.filter_methods).filtered_methods) := by
  constructor
  · rw [filter_methods_eq]
  · rw [filter_methods_eq app, filter_methods_eq]

/-! ## C6 -/

/-- C6: every call to `filter_methods` resets the methods selection cursor
to `Some(0)`, whatever the previous cursor and query were, including when
the resulting filtered list is empty. -/
theorem filter_methods_resets_cursor (app : App) :
    (app.filter_methods).methods_state.selected = some 0 := by
  rw [filter_methods_eq]

/-! ## C1 -/

/-- C1 (evaluation of the code at the failing input): in `ParamInput` mode a
confirm/submit (Enter) event only transitions the mode back to `Main`: the
resulting state is the input state with `mode := Main` and nothing else
changed, and in particular the history is still empty — no `Request` is
built, no RPC exchange is invoked (`send_rpc_request` has no call site in
the event handlers), and no `HistoryEntry` is appended. -/
theorem param_input_enter_no_exchange :
    handleKey appParamInput ⟨KeyCode.Enter, KeyModifiers.NONE⟩
      = { appParamInput with mode := AppMode.Main }
  ∧ (handleKey appParamInput ⟨KeyCode.Enter, KeyModifiers.NONE⟩).history = [] :=
  ⟨rfl, rfl⟩

/-! ## C2 -/

/-- C2 (evaluation of the code at the failing input): pressing the `'h'`
character key with no modifiers in `Main` mode at the initial state leaves
the mode at `Main` and appends `'h'` to the search input; the `'h'` match
arm of `handle_main_mode` is shadowed by the earlier printable-character
arm, so the transition to `History` mode never happens. -/
theorem h_key_stays_in_main :
    (handleKey App.new ⟨KeyCode.Char 'h', KeyModifiers.NONE⟩).mode = AppMode.Main
  ∧ (handleKey App.new ⟨KeyCode.Char 'h', KeyModifiers.NONE⟩).search_input = "h" :=
  ⟨rfl, rfl⟩

/-! ## C8 -/

/-- C8: a cancel (Esc) event in `ParamInput` mode or in `History` mode sets
the mode to `Main` and changes no other component of the state: the result
is exactly the input state with `mode := Main`, so search text, filtered
list, parameter fields and history are all unchanged. -/
theorem cancel_returns_to_main (app : App) (m : KeyModifiers) :
    (app.mode = AppMode.ParamInput →
       handleKey app ⟨KeyCode.Esc, m⟩ = { app with mode := AppMode.Main })
  ∧ (app.mode = AppMode.History →
       handleKey app ⟨KeyCode.Esc, m⟩ = { app with mode := AppMode.Main }) := by
  constructor <;> intro h <;>
    simp [handleKey, h, handle_param_input_mode, handle_history_mode]

/-- Witness for C8 at concrete states in each of the two modes. -/
theorem cancel_returns_to_main_witness :
    handleKey appParamInput ⟨KeyCode.Esc, KeyModifiers.NONE⟩
      = { appParamInput with mode := AppMode.Main }
  ∧ handleKey appHistory ⟨KeyCode.Esc, KeyModifiers.NONE⟩
      = { appHistory with mode := AppMode.Main } :=
  ⟨(cancel_returns_to_main appParamInput KeyModifiers.NONE).1 rfl,
   (cancel_returns_to_main appHistory KeyModifiers.NONE).2 rfl⟩

/-! ## C10 -/

/-- C10: in `ParamInput` mode with an empty parameter input set, a
printable-character event and a delete-last-character (Backspace) event
leave the entire state unchanged: the `get_mut(0)` lookup yields nothing,
so both events are no-ops. -/
theorem empty_param_inputs_noop (app : App) (m : KeyModifiers) (c : Char)
    (hmode : app.mode = AppMode.ParamInput)
    (hempty : app.param_inputs = [])
    (hc : charIsControl c = false) :
    handleKey app ⟨KeyCode.Char c, KeyModifiers.NONE⟩ = app
  ∧ handleKey app ⟨KeyCode.Backspace, m⟩ = app := by
  constructor
  · simp [handleKey, hmode, handle_param_input_mode, KeyModifiers.NONE, hempty, hc]
  · simp [handleKey, hmode, handle_param_input_mode, hempty]

/-- Witness for C10: at the concrete empty-parameter state, typing `'a'`
and pressing Backspace are both no-ops. -/
theorem empty_param_inputs_noop_witness :
    handleKey appParamInputEmpty ⟨KeyCode.Char 'a', KeyModifiers.NONE⟩
      = appParamInputEmpty
  ∧ handleKey appParamInputEmpty ⟨KeyCode.Backspace, KeyModifiers.NONE⟩
      = appParamInputEmpty :=
  empty_param_inputs_noop appParamInputEmpty KeyModifiers.NONE 'a' rfl rfl (by decide)

/-- Characterization of `Iterator::position` with an equality predicate:
it returns the index of the first occurrence when the element is present,
and nothing otherwise. -/
theorem listPosition_beq (x : String) (l : List String) :
    (x ∈ l → listPosition (fun m => m == x) l = some (List.indexOf x l))
  ∧ (x ∉ l → listPosition (fun m => m == x) l = none) := by
  induction l with
  | nil => simp [listPosition]
  | cons a t ih =>
      by_cases hax : a = x
      · subst hax
        refine ⟨fun _ => ?_, fun hx => absurd (List.mem_cons_self a t) hx⟩
        simp [listPosition, List.indexOf_cons]
      · constructor
        · intro hmem
          have hxt : x ∈ t := by
            rcases List.mem_cons.mp hmem with h | h
            · exact absurd h.symm hax
            · exact h
          simp [listPosition, List.indexOf_cons, hax, ih.1 hxt,
            Ne.symm hax]
        · intro hmem
          have hxt : x ∉ t := fun h => hmem (List.mem_cons_of_mem a h)
          simp [listPosition, hax, ih.2 hxt]

/-! ## C4 -/

/-- C4: in `History` mode, a confirm/submit (Enter) event replaying the
history entry at the history cursor resets the filtered method list to the
full method list, moves the methods cursor to the index of the replayed
request's method name when it occurs in the full list (and leaves the
cursor untouched otherwise), sets the parameter input fields to the string
form of the replayed request's parameter values (the empty field set when
the stored `params` is not a JSON array), and transitions to `ParamInput`
mode. -/
theorem history_replay_spec (app : App) (m : KeyModifiers)
    (req : JsonRpcRequest) (res : JsonRpcResponse)
    (hmode : app.mode = AppMode.History)
    (hget : app.history.get? (app.history_state.selected.getD 0)
      = some (req, res)) :
    ((handleKey app ⟨KeyCode.Enter, m⟩).filtered_methods = app.all_methods)
  ∧ (req.method ∈ app.all_methods →
       (handleKey app ⟨KeyCode.Enter, m⟩).methods_state.selected
         = some (List.indexOf req.method app.all_methods))
  ∧ (req.method ∉ app.all_methods →
       (handleKey app ⟨KeyCode.Enter, m⟩).methods_state = app.methods_state)
  ∧ ((handleKey app ⟨KeyCode.Enter, m⟩).param_inputs
       = ((Json.as_array req.params).getD []).map Json.render)
  ∧ ((handleKey app ⟨KeyCode.Enter, m⟩).mode = AppMode.ParamInput) := by
  simp only [handleKey, hmode, handle_history_mode, hget]
  cases hpos : listPosition (fun m => m == req.method) app.all_methods with
  | none =>
      refine ⟨by simp [hpos], fun hmem => ?_, fun _ => by simp [hpos], by simp [hpos],
        by simp [hpos]⟩
      have hsome := (listPosition_beq req.method app.all_methods).1 hmem
      rw [hpos] at hsome
      cases hsome
  | some idx =>
      refine ⟨by simp [hpos], fun hmem => ?_, fun hmem => ?_, by simp [hpos],
        by simp [hpos]⟩
      · have hsome := (listPosition_beq req.method app.all_methods).1 hmem
        rw [hpos] at hsome
        simp [hpos]
        exact Option.some.inj hsome
      · have hnone := (listPosition_beq req.method app.all_methods).2 hmem
        rw [hpos] at hnone
        cases hnone

/-- Witness for C4: replaying the single history entry of `appHistory`. -/
theorem history_replay_spec_witness :
    ((handleKey appHistory ⟨KeyCode.Enter, KeyModifiers.NONE⟩).filtered_methods
       = appHistory.all_methods)
  ∧ ((handleKey appHistory ⟨KeyCode.Enter, KeyModifiers.NONE⟩).methods_state.selected
       = some (List.indexOf reqW.method appHistory.all_methods))
  ∧ ((handleKey appHistory ⟨KeyCode.Enter, KeyModifiers.NONE⟩).param_inputs
       = ((Json.as_array reqW.params).getD []).map Json.render)
  ∧ ((handleKey appHistory ⟨KeyCode.Enter, KeyModifiers.NONE⟩).mode
       = AppMode.ParamInput) := by
  have h := history_replay_spec appHistory KeyModifiers.NONE reqW resW rfl rfl
  exact ⟨h.1, h.2.1 (by decide), h.2.2.2.1, h.2.2.2.2⟩

/-! ## C7 -/

/-- C7: move-up with the cursor at 0 and move-down with the cursor at the
last index of the corresponding list (the filtered methods in `Main` mode,
the history in `History` mode) leave the state unchanged, and whenever the
cursor is a valid index of the corresponding list, it is still a valid
index after a move-up or move-down event (it never leaves `[0, len-1]`,
and, being a natural number guarded by `i > 0`, never decrements below
zero). -/
theorem move_cursor_clamped (app : App) (m : KeyModifiers) :
    (app.mode = AppMode.Main → app.methods_state.selected = some 0 →
       handleKey app ⟨KeyCode.Up, m⟩ = app)
  ∧ (app.mode = AppMode.Main →
       app.methods_state.selected = some (app.filtered_methods.length - 1) →
       handleKey app ⟨KeyCode.Down, m⟩ = app)
  ∧ (app.mode = AppMode.Main → ∀ i, app.methods_state.selected = some i →
       i < app.filtered_methods.length →
       (∃ j, j < app.filtered_methods.length ∧
          (handleKey app ⟨KeyCode.Up, m⟩).methods_state.selected = some j)
     ∧ (∃ j, j < app.filtered_methods.length ∧
          (handleKey app ⟨KeyCode.Down, m⟩).methods_state.selected = some j))
  ∧ (app.mode = AppMode.History → app.history_state.selected = some 0 →
       handleKey app ⟨KeyCode.Up, m⟩ = app)
  ∧ (app.mode = AppMode.History →
       app.history_state.selected = some (app.history.length - 1) →
       handleKey app ⟨KeyCode.Down, m⟩ = app)
  ∧ (app.mode = AppMode.History → ∀ i, app.history_state.selected = some i →
       i < app.history.length →
       (∃ j, j < app.history.length ∧
          (handleKey app ⟨KeyCode.Up, m⟩).history_state.selected = some j)
     ∧ (∃ j, j < app.history.length ∧
          (handleKey app ⟨KeyCode.Down, m⟩).history_state.selected = some j)) := by
  refine ⟨?_, ?_, ?_, ?_, ?_, ?_⟩
  · intro hmode hsel
    simp [handleKey, hmode, handle_main_mode, hsel]
  · intro hmode hsel
    simp only [handleKey, hmode, handle_main_mode, hsel, Option.getD_some]
    rw [if_neg (by omega)]
  · intro hmode i hsel hi
    simp only [handleKey, hmode, handle_main_mode, hsel, Option.getD_some]
    constructor
    · by_cases h0 : i > 0
      · exact ⟨i - 1, by omega, by rw [if_pos h0]⟩
      · exact ⟨i, hi, by rw [if_neg h0, hsel]⟩
    · by_cases hlast : i + 1 < app.filtered_methods.length
      · refine ⟨i + 1, ?_, by rw [if_pos hlast]⟩
        simpa using hlast
      · exact ⟨i, hi, by rw [if_neg hlast, hsel]⟩
  · intro hmode hsel
    simp [handleKey, hmode, handle_history_mode, hsel]
  · intro hmode hsel
    simp only [handleKey, hmode, handle_history_mode, hsel, Option.getD_some]
    rw [if_neg (by omega)]
  · intro hmode i hsel hi
    simp only [handleKey, hmode, handle_history_mode, hsel, Option.getD_some]
    constructor
    · by_cases h0 : i > 0
      · exact ⟨i - 1, by omega, by rw [if_pos h0]⟩
      · exact ⟨i, hi, by rw [if_neg h0, hsel]⟩
    · by_cases hlast : i + 1 < app.history.length
      · refine ⟨i + 1, ?_, by rw [if_pos hlast]⟩
        simpa using hlast
      · exact ⟨i, hi, by rw [if_neg hlast, hsel]⟩

/-- Witness for C7: boundary no-ops and in-range preservation at concrete
states in both modes. -/
theorem move_cursor_clamped_witness :
    (handleKey App.new ⟨KeyCode.Up, KeyModifiers.NONE⟩ = App.new)
  ∧ (handleKey appMainLast ⟨KeyCode.Down, KeyModifiers.NONE⟩ = appMainLast)
  ∧ (∃ j, j < App.new.filtered_methods.length ∧
       (handleKey App.new ⟨KeyCode.Up, KeyModifiers.NONE⟩).methods_state.selected
         = some j)
  ∧ (handleKey appHistory ⟨KeyCode.Up, KeyModifiers.NONE⟩ = appHistory)
  ∧ (handleKey appHistory ⟨KeyCode.Down, KeyModifiers.NONE⟩ = appHistory)
  ∧ (∃ j, j < appHistory.history.length ∧
       (handleKey appHistory ⟨KeyCode.Down, KeyModifiers.NONE⟩).history_state.selected
         = some j) := by
  refine ⟨?_, ?_, ?_, ?_, ?_, ?_⟩
  · exact (move_cursor_clamped App.new KeyModifiers.NONE).1 rfl rfl
  · exact (move_cursor_clamped appMainLast KeyModifiers.NONE).2.1 rfl rfl
  · exact ((move_cursor_clamped App.new KeyModifiers.NONE).2.2.1 rfl 0 rfl
      (by decide)).1
  · exact (move_cursor_clamped appHistory KeyModifiers.NONE).2.2.2.1 rfl rfl
  · exact (move_cursor_clamped appHistory KeyModifiers.NONE).2.2.2.2.1 rfl rfl
  · exact ((move_cursor_clamped appHistory KeyModifiers.NONE).2.2.2.2.2 rfl 0 rfl
      (by decide)).2

/-- Frame lemma: `filter_methods` never touches the quit flag. -/
theorem filter_methods_should_quit (app : App) :
    (app.filter_methods).should_quit = app.should_quit := rfl

/-- Frame lemma: in `Main` mode, any event other than Ctrl+C leaves the
quit flag as it was. -/
theorem handle_main_mode_should_quit (app : App) (key : KeyEvent)
    (h : ¬(key.code = KeyCode.Char 'c' ∧ key.modifiers.control = true)) :
    (handle_main_mode app key).should_quit = app.should_quit := by
  obtain ⟨code, mods⟩ := key
  cases code with
  | Char c =>
      have hg : ¬(c = 'c' ∧ mods.control = true) := by
        rintro ⟨h1, h2⟩
        exact h ⟨by rw [h1], h2⟩
      simp only [handle_main_mode]
      rw [if_neg hg]
      split
      · exact filter_methods_should_quit _
      · split <;> rfl
  | Backspace => exact filter_methods_should_quit _
  | Enter => rfl
  | Esc => rfl
  | Up => simp only [handle_main_mode]; split <;> rfl
  | Down => simp only [handle_main_mode]; split <;> rfl

/-- Frame lemma: in `ParamInput` mode, any event other than Ctrl+C leaves
the quit flag as it was. -/
theorem handle_param_input_mode_should_quit (app : App) (key : KeyEvent)
    (h : ¬(key.code = KeyCode.Char 'c' ∧ key.modifiers.control = true)) :
    (handle_param_input_mode app key).should_quit = app.should_quit := by
  obtain ⟨code, mods⟩ := key
  cases code with
  | Char c =>
      have hg : ¬(c = 'c' ∧ mods.control = true) := by
        rintro ⟨h1, h2⟩
        exact h ⟨by rw [h1], h2⟩
      simp only [handle_param_input_mode]
      rw [if_neg hg]
      split
      · split <;> rfl
      · rfl
  | Backspace =>
      simp only [handle_param_input_mode]
      split <;> rfl
  | Enter => rfl
  | Esc => rfl
  | Up => rfl
  | Down => rfl

/-- Frame lemma: in `History` mode, any event other than Ctrl+C leaves the
quit flag as it was. -/
theorem handle_history_mode_should_quit (app : App) (key : KeyEvent)
    (h : ¬(key.code = KeyCode.Char 'c' ∧ key.modifiers.control = true)) :
    (handle_history_mode app key).should_quit = app.should_quit := by
  obtain ⟨code, mods⟩ := key
  cases code with
  | Char c =>
      have hg : ¬(c = 'c' ∧ mods.control = true) := by
        rintro ⟨h1, h2⟩
        exact h ⟨by rw [h1], h2⟩
      simp only [handle_history_mode]
      rw [if_neg hg]
  | Backspace => rfl
  | Enter =>
      simp only [handle_history_mode]
      split
      · split <;> rfl
      · rfl
  | Esc => rfl
  | Up => simp only [handle_history_mode]; split <;> rfl
  | Down => simp only [handle_history_mode]; split <;> rfl

/-! ## C9 -/

/-- C9: in every mode, a Ctrl+C key event sets the quit flag, and no other
key event ever sets it: starting from a state whose quit flag is false,
processing any non-Ctrl+C event leaves the quit flag false. -/
theorem quit_flag_spec (app : App) (key : KeyEvent) :
    ((key.code = KeyCode.Char 'c' ∧ key.modifiers.control = true) →
       (handleKey app key).should_quit = true)
  ∧ ((¬(key.code = KeyCode.Char 'c' ∧ key.modifiers.control = true)) →
       app.should_quit = false →
       (handleKey app key).should_quit = false) := by
  constructor
  · rintro ⟨h1, h2⟩
    cases happ : app.mode <;>
      simp [handleKey, happ, handle_main_mode, handle_param_input_mode,
        handle_history_mode, h1, h2]
  · intro hn hq
    cases happ : app.mode
    · simp only [handleKey, happ]
      exact (handle_main_mode_should_quit app key hn).trans hq
    · simp only [handleKey, happ]
      exact (handle_param_input_mode_should_quit app key hn).trans hq
    · simp only [handleKey, happ]
      exact (handle_history_mode_should_quit app key hn).trans hq

/-- Witness for C9: Ctrl+C quits from the initial state; Enter does not. -/
theorem quit_flag_spec_witness :
    (handleKey App.new ⟨KeyCode.Char 'c', ⟨true, false, false⟩⟩).should_quit = true
  ∧ (handleKey App.new ⟨KeyCode.Enter, KeyModifiers.NONE⟩).should_quit = false :=
  ⟨(quit_flag_spec App.new ⟨KeyCode.Char 'c', ⟨true, false, false⟩⟩).1 ⟨rfl, rfl⟩,
   (quit_flag_spec App.new ⟨KeyCode.Enter, KeyModifiers.NONE⟩).2 (by decide) rfl⟩

/-! ## C5 -/

/-- C5: the RPC exchange fails with a transport error exactly on
transport-level failures (connection, timeout, reset), fails with the
distinct protocol error when a body is received but cannot be parsed as a
well-formed `Response` envelope (either not valid JSON or not matching the
envelope's shape), and on a successful parse returns the parsed `Response`
unchanged, whatever the `result`/`error` fields contain. -/
theorem send_rpc_request_spec (net : String → JsonRpcRequest → HttpOutcome)
    (url : String) (req : JsonRpcRequest) :
    (∀ e, net url req = HttpOutcome.transportFail e →
       send_rpc_request net url req = Except.error (RpcError.transport e))
  ∧ (∀ b, net url req = HttpOutcome.body b →
       (∀ j, b = some j → responseFromJson j = none) →
       send_rpc_request net url req = Except.error RpcError.protocol)
  ∧ (∀ j r, net url req = HttpOutcome.body (some j) →
       responseFromJson j = some r →
       send_rpc_request net url req = Except.ok r)
  ∧ (∀ e, RpcError.transport e ≠ RpcError.protocol) := by
  refine ⟨?_, ?_, ?_, ?_⟩
  · intro e h
    simp [send_rpc_request, h]
  · intro b h hj
    cases b with
    | none => simp [send_rpc_request, h]
    | some j => simp [send_rpc_request, h, hj j rfl]
  · intro j r h hr
    simp [send_rpc_request, h, hr]
  · intro e hcontra
    cases hcontra

/-- Witness for C5 at the three concrete network oracles; the successful
case parses the body used by the mock-server test of `src/rpc.rs`. -/
theorem send_rpc_request_spec_witness :
    send_rpc_request netTransport "http://localhost:8545" reqW
      = Except.error (RpcError.transport TransportError.timeout)
  ∧ send_rpc_request netBadBody "http://localhost:8545" reqW
      = Except.error RpcError.protocol
  ∧ send_rpc_request netGood "http://localhost:8545" reqW = Except.ok resGood := by
  refine ⟨?_, ?_, ?_⟩
  · exact (send_rpc_request_spec netTransport "http://localhost:8545" reqW).1
      TransportError.timeout rfl
  · exact (send_rpc_request_spec netBadBody "http://localhost:8545" reqW).2.1
      none rfl (fun j hj => by cases hj)
  · exact (send_rpc_request_spec netGood "http://localhost:8545" reqW).2.2.1
      goodBody resGood rfl rfl
